import Mathlib

/-!
Shallow embedding of the binance-ohlcv sync script (src/api/index.js) and
verification of the specification's claims about it.

The embedding mirrors the source:
* module-level constants `EXCLUDED_KEYWORDS`, `ONE_DAY_MS`, `FIVE_YEARS_MS`;
* the window-planning block of `handler` (lines 124-135) as the pure
  function `plan`, with JS truthiness of the nullable millisecond
  timestamps modelled by `jsFalsy` (null and 0 are both falsy);
* the paginated fetcher `fetchKlines` (lines 18-51) as a fuel-indexed
  loop over an abstract remote API behaviour, instrumented to record the
  requested chunks and whether the loop finished within the given fuel;
* the per-symbol range inspection (lines 102-121) and the pair filtering
  and response construction of `handler`.
-/

namespace Binance

/-- One day in milliseconds, as in the source: 24 * 60 * 60 * 1000. -/
def ONE_DAY_MS : Int := 24 * 60 * 60 * 1000

/-- Five years in milliseconds, as in the source: 5 * 365 * ONE_DAY_MS. -/
def FIVE_YEARS_MS : Int := 5 * 365 * ONE_DAY_MS

/-- The per-call chunk width used by the fetcher: 1000 * ONE_DAY_MS. -/
def CHUNK_MS : Int := 1000 * ONE_DAY_MS

/-- A fetch window with bounds in epoch milliseconds
(the source's object literal {from, to}). -/
structure Window where
  fromMs : Int
  toMs : Int
deriving DecidableEq, Repr

/-- JS truthiness test used by the source on the nullable timestamps
`earliestMs`/`latestMs`: `!x` is true when x is null and also when x is
the number 0. -/
def jsFalsy (o : Option Int) : Prop :=
  o = none ∨ o = some 0

instance (o : Option Int) : Decidable (jsFalsy o) :=
  inferInstanceAs (Decidable (o = none ∨ o = some 0))

/-- The window-planning block of `handler` (source lines 124-135):
push a full-horizon window when `!earliestMs`, else a backfill window when
`earliestMs > globalStart + ONE_DAY_MS`; then push an update window when
`latestMs && latestMs + ONE_DAY_MS < now`. -/
def plan (earliestMs latestMs : Option Int) (now globalStart : Int) : List Window :=
  let tasks1 : List Window :=
    if jsFalsy earliestMs then
      [⟨globalStart, now⟩]
    else if earliestMs.getD 0 > globalStart + ONE_DAY_MS then
      [⟨globalStart, earliestMs.getD 0 - ONE_DAY_MS⟩]
    else
      []
  let tasks2 : List Window :=
    if ¬ jsFalsy latestMs ∧ latestMs.getD 0 + ONE_DAY_MS < now then
      [⟨latestMs.getD 0 + ONE_DAY_MS, now⟩]
    else
      []
  tasks1 ++ tasks2

/-- Two windows are disjoint as closed intervals of instants. -/
def disjointW (w1 w2 : Window) : Prop :=
  w1.toMs < w2.fromMs ∨ w2.toMs < w1.fromMs

instance (w1 w2 : Window) : Decidable (disjointW w1 w2) :=
  inferInstanceAs (Decidable (w1.toMs < w2.fromMs ∨ w2.toMs < w1.fromMs))

/-- Outcome of one of the two single-row range-inspection queries of
`handler` (source lines 102-121): either the query failed (or matched no
row), or it produced a stored open_time in milliseconds. -/
inductive RangeQ where
  | fail
  | found (ms : Int)
deriving DecidableEq, Repr

/-- How `handler` turns a range-query outcome into the nullable timestamp:
on error the variable keeps its initial null (source lines 103-121). -/
def rangeToMs : RangeQ → Option Int
  | RangeQ.fail => none
  | RangeQ.found v => some v

/-- The fetch windows `handler` plans for one symbol, given the outcomes of
its two range-inspection queries (source lines 102-135). -/
def symbolTasks (earlyQ lateQ : RangeQ) (now globalStart : Int) : List Window :=
  plan (rangeToMs earlyQ) (rangeToMs lateQ) now globalStart

/-- Claim C3: with no stored data (both range bounds null) the planner
emits exactly one window {from: globalStart, to: now}, where globalStart
is now minus 5*365 days. -/
theorem plan_no_data_full_window (now : Int) :
    FIVE_YEARS_MS = 5 * 365 * ONE_DAY_MS ∧
    plan none none now (now - FIVE_YEARS_MS) = [⟨now - FIVE_YEARS_MS, now⟩] := by
  refine ⟨rfl, ?_⟩
  simp [plan, jsFalsy]

/-- Claim C1, counterexample: when `earliestMs` is null but `latestMs` is
not (an early range query failing while the late one succeeds), the
planner emits a full-horizon window and an update window that overlap. -/
theorem plan_overlap_counterexample :
    plan none (some (10 * ONE_DAY_MS)) (20 * ONE_DAY_MS) 0 =
      [⟨0, 20 * ONE_DAY_MS⟩, ⟨11 * ONE_DAY_MS, 20 * ONE_DAY_MS⟩] ∧
    ¬ disjointW ⟨0, 20 * ONE_DAY_MS⟩ ⟨11 * ONE_DAY_MS, 20 * ONE_DAY_MS⟩ := by
  decide

/-- Claim C1, amended: when both bounds are present, non-zero (JS-truthy)
and earliest ≤ latest, the planned windows are pairwise disjoint, each one
is the backfill window ending at earliestMs - 1 day or the update window
starting at latestMs + 1 day, and no window touches the already-covered
open interval (earliestMs, latestMs). -/
theorem plan_windows_disjoint (e l now gS : Int) (he : e ≠ 0) (hl : l ≠ 0)
    (hel : e ≤ l) :
    List.Pairwise disjointW (plan (some e) (some l) now gS) ∧
    (∀ w ∈ plan (some e) (some l) now gS,
      w = ⟨gS, e - ONE_DAY_MS⟩ ∨ w = ⟨l + ONE_DAY_MS, now⟩) ∧
    (∀ w ∈ plan (some e) (some l) now gS, ∀ t : Int,
      w.fromMs ≤ t → t ≤ w.toMs → ¬ (e < t ∧ t < l)) := by
  have hd : ONE_DAY_MS = 86400000 := by norm_num [ONE_DAY_MS]
  have he0 : ¬ jsFalsy (some e) := by simp [jsFalsy]; omega
  have hl0 : ¬ jsFalsy (some l) := by simp [jsFalsy]; omega
  by_cases h2 : e > gS + ONE_DAY_MS <;> by_cases h3 : l + ONE_DAY_MS < now
  · have hp : plan (some e) (some l) now gS =
        [⟨gS, e - ONE_DAY_MS⟩, ⟨l + ONE_DAY_MS, now⟩] := by
      simp [plan, he0, hl0, h2, h3]
    rw [hp]
    refine ⟨?_, ?_, ?_⟩
    · simp only [List.pairwise_cons, List.mem_singleton, List.not_mem_nil,
        false_implies, implies_true, and_true, List.Pairwise.nil]
      intro w hw
      subst hw
      exact Or.inl (by dsimp only; omega)
    · intro w hw
      simp only [List.mem_cons, List.not_mem_nil, or_false] at hw
      tauto
    · intro w hw t ht1 ht2
      simp only [List.mem_cons, List.not_mem_nil, or_false] at hw
      rcases hw with rfl | rfl <;> dsimp only at ht1 ht2 <;> omega
  · have hp : plan (some e) (some l) now gS = [⟨gS, e - ONE_DAY_MS⟩] := by
      simp [plan, he0, hl0, h2, h3]
    rw [hp]
    refine ⟨List.pairwise_singleton _ _, ?_, ?_⟩
    · intro w hw
      simp only [List.mem_singleton] at hw
      exact Or.inl hw
    · intro w hw t ht1 ht2
      simp only [List.mem_singleton] at hw
      subst hw
      dsimp only at ht1 ht2
      omega
  · have hp : plan (some e) (some l) now gS = [⟨l + ONE_DAY_MS, now⟩] := by
      simp [plan, he0, hl0, h2, h3]
    rw [hp]
    refine ⟨List.pairwise_singleton _ _, ?_, ?_⟩
    · intro w hw
      simp only [List.mem_singleton] at hw
      exact Or.inr hw
    · intro w hw t ht1 ht2
      simp only [List.mem_singleton] at hw
      subst hw
      dsimp only at ht1 ht2
      omega
  · have hp : plan (some e) (some l) now gS = [] := by
      simp [plan, he0, hl0, h2, h3]
    rw [hp]
    refine ⟨List.Pairwise.nil, ?_, ?_⟩ <;> intro w hw <;> simp at hw

/-- Claim C1, witness: the spec's scenario (data covering days 100..200,
horizon day 0, now day 250) instantiates the amended disjointness
theorem. -/
theorem plan_windows_disjoint_witness :
    List.Pairwise disjointW
      (plan (some (100 * ONE_DAY_MS)) (some (200 * ONE_DAY_MS)) (250 * ONE_DAY_MS) 0) ∧
    (∀ w ∈ plan (some (100 * ONE_DAY_MS)) (some (200 * ONE_DAY_MS)) (250 * ONE_DAY_MS) 0,
      w = ⟨0, 100 * ONE_DAY_MS - ONE_DAY_MS⟩ ∨
      w = ⟨200 * ONE_DAY_MS + ONE_DAY_MS, 250 * ONE_DAY_MS⟩) ∧
    (∀ w ∈ plan (some (100 * ONE_DAY_MS)) (some (200 * ONE_DAY_MS)) (250 * ONE_DAY_MS) 0,
      ∀ t : Int, w.fromMs ≤ t → t ≤ w.toMs →
        ¬ (100 * ONE_DAY_MS < t ∧ t < 200 * ONE_DAY_MS)) :=
  plan_windows_disjoint (100 * ONE_DAY_MS) (200 * ONE_DAY_MS) (250 * ONE_DAY_MS) 0
    (by norm_num [ONE_DAY_MS]) (by norm_num [ONE_DAY_MS]) (by norm_num [ONE_DAY_MS])

/-- Claim C4, counterexample: earliestMs = 0 is non-null and within one
day of globalStart = 0, and latestMs is within one day of now, yet the
planner emits a full-horizon window rather than zero windows, because the
source's `!earliestMs` truthiness test treats the timestamp 0 as missing
data. -/
theorem plan_covered_counterexample :
    (0 : Int) ≤ 0 + ONE_DAY_MS ∧
    10 * ONE_DAY_MS - ONE_DAY_MS ≤ 10 * ONE_DAY_MS ∧
    plan (some 0) (some (10 * ONE_DAY_MS)) (10 * ONE_DAY_MS) 0 ≠ [] := by
  decide

/-- Claim C4, amended: with non-null, non-zero earliestMs at most
globalStart + 1 day and latestMs at least now - 1 day, the planner emits
zero windows. -/
theorem plan_covered_noop (e l now gS : Int) (he0 : e ≠ 0)
    (he : e ≤ gS + ONE_DAY_MS) (hl : now - ONE_DAY_MS ≤ l) :
    plan (some e) (some l) now gS = [] := by
  have hfe : ¬ jsFalsy (some e) := by simp [jsFalsy]; omega
  have h2 : ¬ e > gS + ONE_DAY_MS := by omega
  have h3 : ¬ (¬ jsFalsy (some l) ∧ l + ONE_DAY_MS < now) := by
    rintro ⟨-, hlt⟩
    omega
  simp [plan, hfe, h2, h3]

/-- Claim C4, witness: a concrete fully-covered symbol (earliest one day
after the horizon start, latest one day before now) yields no windows. -/
theorem plan_covered_noop_witness :
    plan (some ONE_DAY_MS) (some (4 * ONE_DAY_MS)) (5 * ONE_DAY_MS) 0 = [] :=
  plan_covered_noop ONE_DAY_MS (4 * ONE_DAY_MS) (5 * ONE_DAY_MS) 0
    (by norm_num [ONE_DAY_MS]) (by norm_num [ONE_DAY_MS]) (by norm_num [ONE_DAY_MS])

/-- Claim C8, counterexample: when both range-inspection queries fail the
symbol is not skipped — the handler plans the full-horizon window, so a
fetch (and on data a write) still happens for that symbol. -/
theorem rangeFail_not_skipped_counterexample :
    symbolTasks RangeQ.fail RangeQ.fail (10 * ONE_DAY_MS) 0 = [⟨0, 10 * ONE_DAY_MS⟩] ∧
    symbolTasks RangeQ.fail RangeQ.fail (10 * ONE_DAY_MS) 0 ≠ [] := by
  decide

/-- Claim C8, amended: a failed range inspection leaves the corresponding
bound null, so the handler treats the symbol exactly like one with no
stored data on that side: with both queries failed it plans the single
full-horizon window {from: globalStart, to: now} and proceeds to fetch it
(the loop continues; no error is raised, but the symbol is not skipped). -/
theorem rangeFail_full_fetch (lateQ : RangeQ) (now gS : Int) :
    symbolTasks RangeQ.fail lateQ now gS = plan none (rangeToMs lateQ) now gS ∧
    symbolTasks RangeQ.fail RangeQ.fail now gS = [⟨gS, now⟩] := by
  refine ⟨rfl, ?_⟩
  simp [symbolTasks, rangeToMs, plan, jsFalsy]

/-- One raw kline row. The fetch loop only ever inspects the first array
slot of a row (its open time, source line 44), so the other ten slots are
abstracted away. -/
structure Kline where
  openTime : Int
deriving DecidableEq, Repr

/-- Possible behaviours of one `fetch` call to the klines endpoint as the
source distinguishes them: a thrown transport error (line 45), a non-ok
HTTP status (line 33), a JSON payload that is not an array (line 38), or
an array of rows. -/
inductive ApiResponse where
  | transportError
  | httpError
  | badPayload
  | rows (ks : List Kline)
deriving DecidableEq, Repr

/-- Result of a run of the fetch loop: the accumulated rows, the chunk
requests issued (startTime, endTime of each call), and whether the loop
reached its exit (`done = false` means the given fuel ran out while the
source's `while (cursor < endTime)` loop would still be running). -/
structure FetchOut where
  rows : List Kline
  reqs : List (Int × Int)
  done : Bool
deriving DecidableEq, Repr

/-- The body of `fetchKlines` (source lines 18-51): loop while
`cursor < endTime`, request the chunk [cursor, min(endTime, cursor +
1000 days)), stop normally on any error response, append returned rows,
stop when fewer than 1000 rows came back, else advance the cursor to the
last row's open time plus one day. The remote API is an arbitrary
function from the requested chunk to a response; `fuel` bounds how many
iterations we unfold. -/
def fetchKlinesFuel (api : Int → Int → ApiResponse) (endTime : Int) :
    Nat → Int → List Kline → List (Int × Int) → FetchOut
  | 0, cursor, all, reqs =>
    if cursor < endTime then ⟨all, reqs, false⟩ else ⟨all, reqs, true⟩
  | f + 1, cursor, all, reqs =>
    if cursor < endTime then
      let chunkEnd := min endTime (cursor + CHUNK_MS)
      let reqs2 := reqs ++ [(cursor, chunkEnd)]
      match api cursor chunkEnd with
      | ApiResponse.transportError => ⟨all, reqs2, true⟩
      | ApiResponse.httpError => ⟨all, reqs2, true⟩
      | ApiResponse.badPayload => ⟨all, reqs2, true⟩
      | ApiResponse.rows ks =>
        let all2 := all ++ ks
        if ks.length < 1000 then ⟨all2, reqs2, true⟩
        else fetchKlinesFuel api endTime f ((ks.getLastD ⟨0⟩).openTime + ONE_DAY_MS) all2 reqs2
    else ⟨all, reqs, true⟩

/-- Entry point of the fetcher: `fetchKlines(symbol, startTime, endTime)`
with the cursor initialised to `startTime` and nothing accumulated. -/
def fetchKlines (api : Int → Int → ApiResponse) (startTime endTime : Int) (fuel : Nat) :
    FetchOut :=
  fetchKlinesFuel api endTime fuel startTime [] []

/-- The spec's iteration bound for a window: ceil((to - from) / 1000 days),
zero when the window is empty. -/
def iterBound (lo hi : Int) : Nat :=
  ((hi - lo).toNat + (CHUNK_MS.toNat - 1)) / CHUNK_MS.toNat

/-- A remote API behaviour consistent with daily klines: whenever a full
page of 1000 rows is returned for a chunk starting at `cursor`, the rows
cover 1000 distinct days, so the last row's open time is at least
`cursor + 999` days. -/
def GoodApi (api : Int → Int → ApiResponse) : Prop :=
  ∀ cursor chunkEnd ks, api cursor chunkEnd = ApiResponse.rows ks →
    1000 ≤ ks.length →
    cursor + 999 * ONE_DAY_MS ≤ (ks.getLastD ⟨0⟩).openTime

/-- An adversarial remote behaviour: every call returns a full page of
1000 rows all timestamped at epoch 0, so the cursor never advances past
0 + 1 day. -/
def advApi : Int → Int → ApiResponse :=
  fun _ _ => ApiResponse.rows (List.replicate 1000 ⟨0⟩)

/-- A remote behaviour that fails every call with a malformed payload. -/
def constBad : Int → Int → ApiResponse :=
  fun _ _ => ApiResponse.badPayload

/-- Every chunk request recorded by the loop spans at most 1000 days. -/
theorem fetchKlinesFuel_reqs_span (api : Int → Int → ApiResponse) (endTime : Int) :
    ∀ fuel cursor all reqs,
      (∀ r ∈ reqs, r.2 - r.1 ≤ CHUNK_MS) →
      ∀ r ∈ (fetchKlinesFuel api endTime fuel cursor all reqs).reqs,
        r.2 - r.1 ≤ CHUNK_MS := by
  intro fuel
  induction fuel with
  | zero =>
    intro cursor all reqs hreqs r hr
    by_cases hlt : cursor < endTime <;>
      simp only [fetchKlinesFuel, if_pos, if_neg, hlt, if_true, if_false] at hr <;>
      exact hreqs r hr
  | succ f ih =>
    intro cursor all reqs hreqs r hr
    by_cases hlt : cursor < endTime
    · simp only [fetchKlinesFuel, hlt, if_true] at hr
      have hnew : ∀ r ∈ reqs ++ [(cursor, min endTime (cursor + CHUNK_MS))],
          r.2 - r.1 ≤ CHUNK_MS := by
        intro r hr2
        rcases List.mem_append.1 hr2 with h | h
        · exact hreqs r h
        · simp only [List.mem_singleton] at h
          subst h
          simp only []
          have : min endTime (cursor + CHUNK_MS) ≤ cursor + CHUNK_MS := min_le_right _ _
          omega
      cases hapi : api cursor (min endTime (cursor + CHUNK_MS)) with
      | transportError => rw [hapi] at hr; exact hnew r hr
      | httpError => rw [hapi] at hr; exact hnew r hr
      | badPayload => rw [hapi] at hr; exact hnew r hr
      | rows ks =>
        rw [hapi] at hr
        by_cases hlen : ks.length < 1000
        · simp only [hlen, if_true] at hr
          exact hnew r hr
        · simp only [hlen, if_false] at hr
          exact ih _ _ _ hnew r hr
    · simp only [fetchKlinesFuel, hlt, if_false] at hr
      exact hreqs r hr

/-- Under the daily-kline progress property, the loop finishes within
ceil((endTime - cursor) / 1000 days) iterations. -/
theorem fetchKlinesFuel_done (api : Int → Int → ApiResponse) (endTime : Int)
    (H : GoodApi api) :
    ∀ fuel cursor all reqs, iterBound cursor endTime ≤ fuel →
      (fetchKlinesFuel api endTime fuel cursor all reqs).done = true := by
  have hC : CHUNK_MS.toNat = 86400000000 := rfl
  intro fuel
  induction fuel with
  | zero =>
    intro cursor all reqs hb
    have hge : ¬ cursor < endTime := by
      intro hlt
      have h1 : (1 : Nat) ≤ iterBound cursor endTime := by
        unfold iterBound
        rw [hC]
        omega
      omega
    simp [fetchKlinesFuel, hge]
  | succ f ih =>
    intro cursor all reqs hb
    by_cases hlt : cursor < endTime
    · simp only [fetchKlinesFuel, hlt, if_true]
      cases hapi : api cursor (min endTime (cursor + CHUNK_MS)) with
      | transportError => rfl
      | httpError => rfl
      | badPayload => rfl
      | rows ks =>
        by_cases hlen : ks.length < 1000
        · simp [hlen]
        · simp only [hlen, if_false]
          apply ih
          have hlast := H cursor _ ks hapi (by omega)
          have hday : ONE_DAY_MS = 86400000 := by norm_num [ONE_DAY_MS]
          unfold iterBound at hb ⊢
          rw [hC] at hb ⊢
          omega
    · simp [fetchKlinesFuel, hlt]

set_option maxRecDepth 100000 in
/-- Claim C2, counterexample: against an adversarial remote behaviour that
answers every call with a full page of epoch-0 rows, the fetch loop is
still running after ceil((to - from) / 1000 days) iterations (the cursor
is driven by the returned timestamps, which can fail to advance it). -/
theorem fetch_iterBound_counterexample :
    (fetchKlines advApi ONE_DAY_MS (2 * ONE_DAY_MS)
      (iterBound ONE_DAY_MS (2 * ONE_DAY_MS))).done = false := by
  decide

/-- Claim C2, amended: every chunk requested by the fetcher spans at most
1000 days, for every remote behaviour; and for every remote behaviour
whose full 1000-row pages cover 1000 days of the requested chunk (so the
last row's open time is at least the chunk start plus 999 days, as holds
for daily klines), the loop terminates within ceil((to - from) /
1000 days) iterations. -/
theorem fetch_chunk_span_and_bounded (startTime endTime : Int) :
    (∀ api fuel, ∀ r ∈ (fetchKlines api startTime endTime fuel).reqs,
      r.2 - r.1 ≤ CHUNK_MS) ∧
    (∀ api, GoodApi api →
      (fetchKlines api startTime endTime (iterBound startTime endTime)).done = true) := by
  constructor
  · intro api fuel r hr
    exact fetchKlinesFuel_reqs_span api endTime fuel startTime [] []
      (by intro r hr; simp at hr) r hr
  · intro api H
    exact fetchKlinesFuel_done api endTime H _ startTime [] [] le_rfl

/-- Claim C2, witness: a concrete two-day window; the recorded first chunk
spans at most 1000 days, and against an always-failing remote the run
finishes within the bound. -/
theorem fetch_chunk_span_and_bounded_witness :
    ((2 * ONE_DAY_MS : Int) - 0 ≤ CHUNK_MS) ∧
    (fetchKlines constBad 0 (2 * ONE_DAY_MS)
      (iterBound 0 (2 * ONE_DAY_MS))).done = true :=
  ⟨(fetch_chunk_span_and_bounded 0 (2 * ONE_DAY_MS)).1 constBad 3
      (0, 2 * ONE_DAY_MS) (by decide),
   (fetch_chunk_span_and_bounded 0 (2 * ONE_DAY_MS)).2 constBad
      (fun _ _ _ h _ => ApiResponse.noConfusion h)⟩

/-- A one-row remote behaviour used to instantiate the step theorems. -/
def oneRowApi : Int → Int → ApiResponse :=
  fun _ _ => ApiResponse.rows [⟨0⟩]

/-- A remote behaviour that fails every call with a non-ok HTTP status. -/
def constHttpErr : Int → Int → ApiResponse :=
  fun _ _ => ApiResponse.httpError

/-- Claim C5: in an iteration where the remote API returns a well-formed
row array, the rows are appended to the accumulator; with fewer than 1000
rows the loop terminates there, and with a full page the cursor advances
to the last returned row's open time plus one day. -/
theorem fetch_step_rows (api : Int → Int → ApiResponse) (endTime : Int) (f : Nat)
    (cursor : Int) (all : List Kline) (reqs : List (Int × Int)) (ks : List Kline)
    (hcur : cursor < endTime)
    (hapi : api cursor (min endTime (cursor + CHUNK_MS)) = ApiResponse.rows ks) :
    (ks.length < 1000 →
      fetchKlinesFuel api endTime (f + 1) cursor all reqs =
        ⟨all ++ ks, reqs ++ [(cursor, min endTime (cursor + CHUNK_MS))], true⟩) ∧
    (1000 ≤ ks.length →
      fetchKlinesFuel api endTime (f + 1) cursor all reqs =
        fetchKlinesFuel api endTime f ((ks.getLastD ⟨0⟩).openTime + ONE_DAY_MS)
          (all ++ ks) (reqs ++ [(cursor, min endTime (cursor + CHUNK_MS))])) := by
  constructor <;> intro hlen
  · simp [fetchKlinesFuel, hcur, hapi, hlen]
  · have hlen2 : ¬ ks.length < 1000 := by omega
    simp [fetchKlinesFuel, hcur, hapi, hlen2]

/-- Claim C5, witness: a short (one row) response at the first iteration
of a one-day window is appended and ends the loop. -/
theorem fetch_step_rows_witness :
    (([⟨0⟩] : List Kline).length < 1000 →
      fetchKlinesFuel oneRowApi ONE_DAY_MS 1 0 [] [] =
        ⟨[] ++ [⟨0⟩], [] ++ [(0, min ONE_DAY_MS (0 + CHUNK_MS))], true⟩) ∧
    (1000 ≤ ([⟨0⟩] : List Kline).length →
      fetchKlinesFuel oneRowApi ONE_DAY_MS 1 0 [] [] =
        fetchKlinesFuel oneRowApi ONE_DAY_MS 0
          ((([⟨0⟩] : List Kline).getLastD ⟨0⟩).openTime + ONE_DAY_MS)
          ([] ++ [⟨0⟩]) ([] ++ [(0, min ONE_DAY_MS (0 + CHUNK_MS))])) :=
  fetch_step_rows oneRowApi ONE_DAY_MS 0 0 [] [] [⟨0⟩] (by decide) rfl

/-- Claim C6: in an iteration where the remote call fails with a transport
error, a non-ok HTTP status, or a non-array payload, the loop ends
normally and yields exactly the rows accumulated in previous iterations —
a partial result, not an error. -/
theorem fetch_step_error_keeps_acc (api : Int → Int → ApiResponse) (endTime : Int)
    (f : Nat) (cursor : Int) (all : List Kline) (reqs : List (Int × Int))
    (hcur : cursor < endTime)
    (herr : api cursor (min endTime (cursor + CHUNK_MS)) = ApiResponse.transportError ∨
            api cursor (min endTime (cursor + CHUNK_MS)) = ApiResponse.httpError ∨
            api cursor (min endTime (cursor + CHUNK_MS)) = ApiResponse.badPayload) :
    fetchKlinesFuel api endTime (f + 1) cursor all reqs =
      ⟨all, reqs ++ [(cursor, min endTime (cursor + CHUNK_MS))], true⟩ := by
  rcases herr with h | h | h <;> simp [fetchKlinesFuel, hcur, h]

/-- Claim C6, witness: an HTTP failure in the second iteration returns the
row accumulated in the first iteration, with the loop finished. -/
theorem fetch_step_error_keeps_acc_witness :
    fetchKlinesFuel constHttpErr (2 * ONE_DAY_MS) 1 ONE_DAY_MS
        [⟨0⟩] [(0, ONE_DAY_MS)] =
      ⟨[⟨0⟩], [(0, ONE_DAY_MS)] ++
        [(ONE_DAY_MS, min (2 * ONE_DAY_MS) (ONE_DAY_MS + CHUNK_MS))], true⟩ :=
  fetch_step_error_keeps_acc constHttpErr (2 * ONE_DAY_MS) 0 ONE_DAY_MS
    [⟨0⟩] [(0, ONE_DAY_MS)] (by decide) (Or.inr (Or.inl rfl))

/-- The last element of a constant list is that constant. -/
theorem getLastD_replicate (n : Nat) (x : Kline) :
    (List.replicate n x).getLastD x = x := by
  induction n with
  | zero => rfl
  | succ m ih =>
    rw [List.replicate_succ, List.getLastD_cons]
    exact ih

/-- Against the adversarial full-page behaviour the loop never reaches its
exit, whatever fuel it is given: its cursor is stuck at one day. -/
theorem advApi_never_done :
    ∀ fuel all reqs,
      (fetchKlinesFuel advApi (2 * ONE_DAY_MS) fuel ONE_DAY_MS all reqs).done = false := by
  have hcur : (ONE_DAY_MS : Int) < 2 * ONE_DAY_MS := by norm_num [ONE_DAY_MS]
  have hlast : ((List.replicate 1000 (⟨0⟩ : Kline)).getLastD ⟨0⟩).openTime + ONE_DAY_MS =
      ONE_DAY_MS := by
    rw [getLastD_replicate]
    norm_num
  have hlen : ¬ (List.replicate 1000 (⟨0⟩ : Kline)).length < 1000 := by
    rw [List.length_replicate]
    omega
  intro fuel
  induction fuel with
  | zero =>
    intro all reqs
    simp only [fetchKlinesFuel, hcur, if_true]
  | succ f ih =>
    intro all reqs
    simp only [fetchKlinesFuel, hcur, if_true, advApi, hlen, if_false, hlast]
    exact ih _ _

/-- Claim C9, counterexample: there is a remote behaviour (full pages of
epoch-0 rows on every call) for which `fetchKlines` never returns: no
amount of fuel completes the loop, so the source's while loop runs
forever and the function is not total. -/
theorem fetch_nontotal_counterexample :
    ¬ ∃ fuel, (fetchKlines advApi ONE_DAY_MS (2 * ONE_DAY_MS) fuel).done = true := by
  rintro ⟨fuel, h⟩
  rw [fetchKlines, advApi_never_done fuel [] []] at h
  exact Bool.false_ne_true h

/-- Claim C9, amended: `fetchKlines` never throws or rejects — transport
errors, HTTP failures and malformed payloads are all absorbed into a
normal early exit — and whenever the remote behaviour's full pages make
the cursor progress (as daily klines do), it completes and returns a
plain list of rows. -/
theorem fetch_total_no_throw (api : Int → Int → ApiResponse)
    (startTime endTime : Int) (H : GoodApi api) :
    ∃ rows reqs, fetchKlines api startTime endTime (iterBound startTime endTime) =
      ⟨rows, reqs, true⟩ := by
  have hdone : (fetchKlines api startTime endTime (iterBound startTime endTime)).done = true :=
    fetchKlinesFuel_done api endTime H _ startTime [] [] le_rfl
  rcases hF : fetchKlines api startTime endTime (iterBound startTime endTime) with ⟨rows, reqs, done⟩
  rw [hF] at hdone
  dsimp only at hdone
  subst hdone
  exact ⟨rows, reqs, rfl⟩

/-- Claim C9, witness: against an always-failing remote (a vacuously
progressing behaviour) a two-day fetch completes and yields a list. -/
theorem fetch_total_no_throw_witness :
    ∃ rows reqs, fetchKlines constBad 0 (2 * ONE_DAY_MS)
      (iterBound 0 (2 * ONE_DAY_MS)) = ⟨rows, reqs, true⟩ :=
  fetch_total_no_throw constBad 0 (2 * ONE_DAY_MS)
    (fun _ _ _ h _ => ApiResponse.noConfusion h)

/-- JS `String.prototype.startsWith` on character lists (exact,
case-sensitive). -/
def beginsWith : List Char → List Char → Bool
  | _, [] => true
  | [], _ :: _ => false
  | c :: s, d :: k => c == d && beginsWith s k

/-- JS `String.prototype.includes` on character lists: the second list
occurs contiguously in the first (exact, case-sensitive). -/
def containsSub : List Char → List Char → Bool
  | [], k => k.isEmpty
  | c :: s, k => beginsWith (c :: s) k || containsSub s k

/-- JS `String.prototype.includes` on strings. -/
def jsIncludes (s k : String) : Bool :=
  containsSub s.data k.data

/-- JS `String.prototype.toLowerCase` (ASCII, which covers the blocklist
and ticker names involved). -/
def lowerStr (s : String) : String :=
  ⟨s.data.map Char.toLower⟩

/-- JS `String.prototype.toUpperCase` (ASCII). -/
def upperStr (s : String) : String :=
  ⟨s.data.map Char.toUpper⟩

/-- The source's blocklist (line 13), verbatim: note 'WETH' is upper
case. -/
def EXCLUDED_KEYWORDS : List String := ["wrapped", "staked", "WETH"]

/-- The name filter of `handler` (line 91): a candidate is excluded when
its lower-cased name includes one of the blocklist entries, the entries
being compared as written. -/
def excludedByName (name : String) : Bool :=
  EXCLUDED_KEYWORDS.any (fun k => jsIncludes (lowerStr name) k)

/-- Modelled from the spec's words for comparison with `excludedByName`:
the claim's case-insensitive filter, where the blocklist entry is also
lower-cased so that its own letter case cannot matter. -/
def specExcludedByName (name : String) : Bool :=
  EXCLUDED_KEYWORDS.any (fun k => jsIncludes (lowerStr name) (lowerStr k))

/-- One row of the market-cap snapshot query (source line 83). -/
structure Snap where
  symbol : String
  name : String

/-- The pair-list construction of `handler` (source lines 90-93): drop
blocklisted names, map to uppercased symbol + "USDT", and keep only pairs
in `validPairs` unless that set is null (no filter). -/
def filterPairs (snaps : List Snap) (validPairs : Option (List String)) : List String :=
  ((snaps.filter (fun s => !(excludedByName s.name))).map
      (fun s => upperStr s.symbol ++ "USDT")).filter
    (fun sym =>
      match validPairs with
      | some vp => vp.contains sym
      | none => true)

/-- The HTTP-style response of `handler`: its status code and, on
success, the `processed` count of the JSON body. -/
structure SyncResponse where
  status : Nat
  processed : Option Nat
deriving DecidableEq, Repr

/-- The orchestration of `handler` (source lines 79-168) after the
exchange-info step: on a snapshot-query error return status 500;
otherwise build the filtered pair list, loop over it running range
inspection, window planning and the fetch of every window (the summed
fetched-row count stands for the per-symbol work), and return status 200
with `processed` = the length of the pair list. The per-symbol query
outcomes and the remote behaviour are arbitrary parameters. -/
def runHandler (validPairs : Option (List String)) (snapQ : Option (List Snap))
    (rangeE rangeL : String → RangeQ) (api : String → Int → Int → ApiResponse)
    (now : Int) (fuel : Nat) : SyncResponse × Nat :=
  match snapQ with
  | none => (⟨500, none⟩, 0)
  | some snaps =>
    let pairs := filterPairs snaps validPairs
    let globalStart := now - FIVE_YEARS_MS
    let fetched := pairs.foldl
      (fun acc sym =>
        (symbolTasks (rangeE sym) (rangeL sym) now globalStart).foldl
          (fun acc2 w => acc2 + (fetchKlines (api sym) w.fromMs w.toMs fuel).rows.length)
          acc)
      0
    (⟨200, some pairs.length⟩, fetched)

/-- Claim C7: the code keeps a candidate named "WETH" even though the
spec's case-insensitive reading of the blocklist excludes it — the name
is lower-cased but the blocklist entry 'WETH' is compared as written, so
that entry can never match; the lower-case entries do behave
case-insensitively ("Wrapped Bitcoin" is excluded, "Bitcoin" is not). -/
theorem excluded_weth_bug :
    excludedByName "WETH" = false ∧
    specExcludedByName "WETH" = true ∧
    excludedByName "Wrapped Bitcoin" = true ∧
    excludedByName "Bitcoin" = false := by
  decide

/-- Claim C10: whenever the snapshot query succeeds the handler responds
with status 200 and `processed` equal to the length of the filtered pair
list, whatever the range-inspection outcomes and remote behaviour of the
per-symbol loop are. -/
theorem processed_count_independent (validPairs : Option (List String))
    (snaps : List Snap) (rangeE rangeL : String → RangeQ)
    (api : String → Int → Int → ApiResponse) (now : Int) (fuel : Nat) :
    (runHandler validPairs (some snaps) rangeE rangeL api now fuel).1 =
      ⟨200, some (filterPairs snaps validPairs).length⟩ :=
  rfl

end Binance
